import Mathlib

/-!
Verification of the sales-dashboard pipeline (src/app1.py).

The script is shallowly embedded as pure functions over an explicit table
type.  A table is a column-name list together with rows, each row an
association list from column name to cell value.  Numeric cells are modelled
as exact integers (the source's floating-point arithmetic is treated as
exact arithmetic, which is the reading under which the spec's algebraic
identities are stated).  Date parsing (`pd.to_datetime(..., errors="coerce")`)
is an external library call; it is modelled as an arbitrary parameter
`parse : Value → Option Int` returning the parsed time point or `none` on
failure.  `df.groupby(c)[a].sum()` yields one entry per distinct key, in
ascending key order (pandas `sort=True` default); `.sort_values` is modelled
as a stable sort (insertion sort), matching the observed tie behaviour of
the library sort on the grouped output.
-/

/-- A cell value: a number or a string. -/
inductive Value where
  | num (n : Int)
  | str (s : String)
  deriving DecidableEq

/-- The ordering pandas uses on group keys: numeric order on numbers,
lexicographic code-point order on strings (a column holds one kind of value;
the cross-kind case is fixed arbitrarily: numbers before strings). -/
def Value.le : Value → Value → Prop
  | Value.num a, Value.num b => a ≤ b
  | Value.num _, Value.str _ => True
  | Value.str _, Value.num _ => False
  | Value.str a, Value.str b => a.data ≤ b.data

/-- Strict version of `Value.le`. -/
def Value.lt (a b : Value) : Prop := Value.le a b ∧ a ≠ b

instance : DecidableRel Value.le := fun a b =>
  match a, b with
  | Value.num x, Value.num y => inferInstanceAs (Decidable (x ≤ y))
  | Value.num _, Value.str _ => isTrue trivial
  | Value.str _, Value.num _ => isFalse (fun h => h)
  | Value.str x, Value.str y => inferInstanceAs (Decidable (x.data ≤ y.data))

instance : DecidableRel Value.lt := fun a b =>
  inferInstanceAs (Decidable (Value.le a b ∧ a ≠ b))

instance : IsTotal Value Value.le :=
  ⟨fun a b => by cases a <;> cases b <;> simp [Value.le] <;> exact le_total _ _⟩

instance : IsTrans Value Value.le :=
  ⟨fun a b c hab hbc => by
    cases a <;> cases b <;> cases c <;> simp_all [Value.le] <;> exact le_trans hab hbc⟩

/-- A row: an association list from column name to cell value. -/
abbrev Row := List (String × Value)

/-- Look a column up in a row (leftmost entry wins). -/
def rowGet : Row → String → Option Value
  | [], _ => none
  | p :: r, c => if p.1 = c then some p.2 else rowGet r c

/-- Cell access with a default for malformed rows (pandas cannot produce a
row missing a column of its own frame, so the default is never observable
on well-formed inputs). -/
def rowGetD (r : Row) (c : String) : Value := (rowGet r c).getD (Value.num 0)

/-- Overwrite column `c` of a row with value `v` (models assigning to an
existing column of a data frame). -/
def setCol (c : String) (v : Value) (r : Row) : Row :=
  r.map (fun p => if p.1 = c then (c, v) else p)

/-- A data frame: column names plus rows. -/
structure Table where
  cols : List String
  rows : List Row
  deriving DecidableEq

/-- Is `c` one of the whitespace characters stripped by `str.strip()`. -/
def isSpaceChar (c : Char) : Bool :=
  c = ' ' || c = '\t' || c = '\n' || c = '\r'

/-- `name.strip().lower()`: trim whitespace at both ends, lowercase. -/
def normName (s : String) : String :=
  String.mk ((((s.data.dropWhile isSpaceChar).reverse.dropWhile
    isSpaceChar).reverse).map Char.toLower)

/-- Line 50: `df.columns = df.columns.str.strip().str.lower()` — rename every
column (the rows' keys are renamed alike, since a frame's rows are keyed by
its column names). -/
def normalizeColumns (t : Table) : Table :=
  { cols := t.cols.map normName
    rows := t.rows.map (fun r => r.map (fun p => (normName p.1, p.2))) }

/-- Lines 53-59: the column the `sales_amount` copy is taken from —
`sales` if present, else `revenue`, else the missing-amount error (the copy
`df["sales_amount"] = df[src]` is modelled by reading the source column
directly, which holds the same values). -/
def sales_amount_col (cols : List String) : Option String :=
  if "sales" ∈ cols then some "sales"
  else if "revenue" ∈ cols then some "revenue"
  else none

/-- Lines 62-70: first product synonym present, if any. -/
def product_column (cols : List String) : Option String :=
  if "productline" ∈ cols then some "productline"
  else if "product_category" ∈ cols then some "product_category"
  else if "product" ∈ cols then some "product"
  else if "products" ∈ cols then some "products"
  else none

/-- Lines 73-77: first region synonym present, if any. -/
def region_column (cols : List String) : Option String :=
  if "region" ∈ cols then some "region"
  else if "country" ∈ cols then some "country"
  else none

/-- The per-role accepted-value sets chosen in the sidebar; `none` means the
role is not filtered (the widget's default, all observed values, behaves the
same as no filter). -/
structure FilterSpec where
  product : Option (List Value)
  region : Option (List Value)
  status : Option (List Value)
  year : Option (List Value)

/-- The row predicate of one sidebar filter: when the role has a bound
column and an accepted-value list, keep rows whose cell is in the list
(`df[col].isin(sel)`); otherwise the filter is not applied. -/
def rolePred (c : Option String) (sel : Option (List Value)) (r : Row) : Bool :=
  match c, sel with
  | some cc, some vs => decide (rowGetD r cc ∈ vs)
  | _, _ => true

/-- One sidebar filter block (`if col: df = df[df[col].isin(sel)]`). -/
def filterRole (t : Table) (c : Option String) (sel : Option (List Value)) : Table :=
  { t with rows := t.rows.filter (rolePred c sel) }

/-- Lines 83-116: the four sidebar filters, applied in source order
(product, region, status, year). -/
def applyFilters (t : Table) (fs : FilterSpec) : Table :=
  let t1 := filterRole t (product_column t.cols) fs.product
  let t2 := filterRole t1 (region_column t.cols) fs.region
  let t3 := filterRole t2 (if "status" ∈ t.cols then some "status" else none) fs.status
  filterRole t3 (if "year_id" ∈ t.cols then some "year_id" else none) fs.year

/-- Numeric reading of a cell (amount columns hold numbers; pandas would
reject a non-numeric amount column, so the string case is never hit on
inputs the script accepts). -/
def Value.asInt : Value → Int
  | Value.num n => n
  | Value.str _ => 0

/-- The amount of one row, read from the resolved amount column. -/
def amountOf (ac : String) (r : Row) : Int := (rowGetD r ac).asInt

/-- Line 119: `df["sales_amount"].sum()`. -/
def total_sales (t : Table) (ac : String) : Int :=
  (t.rows.map (amountOf ac)).sum

/-- Line 121: `df.shape[0]`. -/
def num_transactions (t : Table) : Nat := t.rows.length

/-- Line 120: `df["sales_amount"].mean()` — the sum of the values divided by
their count, not-a-number (here: `none`) when the column is empty. -/
def avg_sales (t : Table) (ac : String) : Option ℚ :=
  let xs := t.rows.map (amountOf ac)
  if xs.length = 0 then none
  else some (((xs.foldl (fun a b => a + b) 0 : Int) : ℚ) / (xs.length : ℚ))

/-- Distinct keys in first-encountered order. -/
def dedupFirst : List Value → List Value
  | [] => []
  | k :: ks => k :: (dedupFirst ks).filter (fun x => decide (x ≠ k))

/-- Sum of the amounts of the pairs carrying key `k`. -/
def sumFor (k : Value) (ps : List (Value × Int)) : Int :=
  ((ps.filter (fun p => decide (p.1 = k))).map Prod.snd).sum

/-- `df.groupby(c)[a].sum()`: one entry per distinct key, in ascending key
order (pandas sorts group keys by default), carrying the per-key sum. -/
def groupSumAsc (ps : List (Value × Int)) : List (Value × Int) :=
  (List.insertionSort Value.le (dedupFirst (ps.map Prod.fst))).map
    (fun k => (k, sumFor k ps))

/-- The comparison of `.sort_values(ascending=False)` on the summed column. -/
def descAmt (p q : Value × Int) : Prop := q.2 ≤ p.2

instance : DecidableRel descAmt := fun p q =>
  inferInstanceAs (Decidable (q.2 ≤ p.2))

/-- `.sort_values(ascending=False)` on the grouped output, as a stable
descending sort. -/
def sortDescAmt (g : List (Value × Int)) : List (Value × Int) :=
  List.insertionSort descAmt g

/-- The (key, amount) pairs of a table under grouping column `c`. -/
def catPairs (t : Table) (c ac : String) : List (Value × Int) :=
  t.rows.map (fun r => (rowGetD r c, amountOf ac r))

/-- Lines 132-137: group by the product column, sum the amounts, sort
descending by summed amount (`reset_index` only reshapes). -/
def sales_by_product (t : Table) (pc ac : String) : List (Value × Int) :=
  sortDescAmt (groupSumAsc (catPairs t pc ac))

/-- Lines 149-154: the same rollup keyed by the region column. -/
def sales_by_region (t : Table) (rc ac : String) : List (Value × Int) :=
  sortDescAmt (groupSumAsc (catPairs t rc ac))

/-- Lines 165-166 combined: `df["orderdate"] = pd.to_datetime(df["orderdate"],
errors="coerce")` overwrites the date column with its parsed value (not-a-time
on failure) and `df = df.dropna(subset=["orderdate"])` then drops exactly the
rows whose value failed to parse. -/
def trendRows (t : Table) (parse : Value → Option Int) : List Row :=
  t.rows.filterMap (fun r =>
    (parse (rowGetD r "orderdate")).map
      (fun d => setCol "orderdate" (Value.num d) r))

/-- The state of the script's `df` variable after the trend block ran
(lines 163-173): unchanged when no `orderdate` column exists, otherwise the
rewritten-and-pruned rows of `trendRows`. -/
def dfAfterTrendStep (t : Table) (parse : Value → Option Int) : Table :=
  if "orderdate" ∈ t.cols then { t with rows := trendRows t parse } else t

/-- Lines 168-173: `df.groupby("orderdate")["sales_amount"].sum()` on the
rewritten frame; the trailing `.sort_values("orderdate")` re-sorts the
already key-ascending grouped output and is the identity. -/
def sales_trend (t : Table) (ac : String) (parse : Value → Option Int) :
    List (Value × Int) :=
  groupSumAsc ((trendRows t parse).map
    (fun r => (rowGetD r "orderdate", amountOf ac r)))

/-- The aggregates one render cycle hands to the charts. -/
structure AggregateResult where
  total : Int
  mean : Option ℚ
  count : Nat
  byProduct : Option (List (Value × Int))
  byRegion : Option (List (Value × Int))
  trend : Option (List (Value × Int))
  deriving DecidableEq

/-- The terminal error conditions of the pipeline. -/
inductive PipelineError where
  | missingAmount
  deriving DecidableEq

/-- Lines 118-180: KPIs and the three optional series, computed from the
filtered table (each series only when its column is bound). -/
def aggregate (ft : Table) (ac : String) (parse : Value → Option Int) :
    AggregateResult :=
  { total := total_sales ft ac
    mean := avg_sales ft ac
    count := num_transactions ft
    byProduct := (product_column ft.cols).map (fun pc => sales_by_product ft pc ac)
    byRegion := (region_column ft.cols).map (fun rc => sales_by_region ft rc ac)
    trend := if "orderdate" ∈ ft.cols then some (sales_trend ft ac parse) else none }

/-- The cycle on an already column-normalized table: resolve the amount
column (halting with the missing-amount error when there is none, line 59's
`st.stop`), then filter, then aggregate. -/
def runResolved (nt : Table) (fs : FilterSpec) (parse : Value → Option Int) :
    Except PipelineError AggregateResult :=
  match sales_amount_col nt.cols with
  | none => Except.error PipelineError.missingAmount
  | some ac => Except.ok (aggregate (applyFilters nt fs) ac parse)

/-- One full render cycle on a raw table: normalize column names, then run
the resolved pipeline. -/
def runPipeline (t : Table) (fs : FilterSpec) (parse : Value → Option Int) :
    Except PipelineError AggregateResult :=
  runResolved (normalizeColumns t) fs parse

/-! ## Helper lemmas: filters -/

/-- `applyFilters` never touches the column list. -/
lemma applyFilters_cols (t : Table) (fs : FilterSpec) :
    (applyFilters t fs).cols = t.cols := rfl

/-- The rows of `applyFilters` are the four sidebar filters applied in
source order. -/
lemma applyFilters_rows (t : Table) (fs : FilterSpec) :
    (applyFilters t fs).rows =
      ((((t.rows.filter (rolePred (product_column t.cols) fs.product)).filter
        (rolePred (region_column t.cols) fs.region)).filter
        (rolePred (if "status" ∈ t.cols then some "status" else none) fs.status)).filter
        (rolePred (if "year_id" ∈ t.cols then some "year_id" else none) fs.year)) := rfl

/-- Rows surviving four chained filters satisfy all four predicates. -/
lemma mem_four_filters {q1 q2 q3 q4 : Row → Bool} {l : List Row} {a : Row}
    (ha : a ∈ (((l.filter q1).filter q2).filter q3).filter q4) :
    q1 a = true ∧ q2 a = true ∧ q3 a = true ∧ q4 a = true := by
  simp only [List.mem_filter] at ha
  exact ⟨ha.1.1.1.2, ha.1.1.2, ha.1.2, ha.2⟩

/-- Re-filtering a four-fold filtered list with the same predicates changes
nothing. -/
lemma four_filters_idem (l : List Row) (q1 q2 q3 q4 : Row → Bool) :
    (((((((l.filter q1).filter q2).filter q3).filter q4).filter q1).filter
      q2).filter q3).filter q4 =
      (((l.filter q1).filter q2).filter q3).filter q4 := by
  have e1 : ((((l.filter q1).filter q2).filter q3).filter q4).filter q1 =
      (((l.filter q1).filter q2).filter q3).filter q4 :=
    List.filter_eq_self.mpr (fun a ha => (mem_four_filters ha).1)
  have e2 : ((((l.filter q1).filter q2).filter q3).filter q4).filter q2 =
      (((l.filter q1).filter q2).filter q3).filter q4 :=
    List.filter_eq_self.mpr (fun a ha => (mem_four_filters ha).2.1)
  have e3 : ((((l.filter q1).filter q2).filter q3).filter q4).filter q3 =
      (((l.filter q1).filter q2).filter q3).filter q4 :=
    List.filter_eq_self.mpr (fun a ha => (mem_four_filters ha).2.2.1)
  have e4 : ((((l.filter q1).filter q2).filter q3).filter q4).filter q4 =
      (((l.filter q1).filter q2).filter q3).filter q4 :=
    List.filter_eq_self.mpr (fun a ha => (mem_four_filters ha).2.2.2)
  rw [e1, e2, e3, e4]

/-! ## Helper lemmas: sums and grouping -/

lemma foldl_add_eq_sum (l : List Int) (a : Int) :
    l.foldl (fun x y => x + y) a = a + l.sum := by
  induction l generalizing a with
  | nil => simp
  | cons b m ih => simp [List.foldl_cons, ih, List.sum_cons, add_assoc]

/-- A list's mapped sum splits along a boolean predicate. -/
lemma sum_filter_add_filter_not (p : Value × Int → Bool) (ps : List (Value × Int)) :
    ((ps.filter p).map Prod.snd).sum +
      ((ps.filter (fun a => !p a)).map Prod.snd).sum = (ps.map Prod.snd).sum := by
  induction ps with
  | nil => simp
  | cons a l ih =>
    cases h : p a
    · rw [List.filter_cons_of_neg (by simp [h]),
        List.filter_cons_of_pos (by simp [h])]
      simp only [List.map_cons, List.sum_cons]
      omega
    · rw [List.filter_cons_of_pos (by simp [h]),
        List.filter_cons_of_neg (by simp [h])]
      simp only [List.map_cons, List.sum_cons]
      omega

/-- Summing the per-key group sums over a duplicate-free list of keys that
covers every pair recovers the total sum. -/
lemma sum_sumFor (keys : List Value) (ps : List (Value × Int))
    (hnd : keys.Nodup) (hall : ∀ p ∈ ps, p.1 ∈ keys) :
    (keys.map (fun k => sumFor k ps)).sum = (ps.map Prod.snd).sum := by
  induction keys generalizing ps with
  | nil =>
    have : ps = [] := by
      cases ps with
      | nil => rfl
      | cons a l => exact absurd (hall a (by simp)) (by simp)
    simp [this]
  | cons k ks ih =>
    have hnd' : ks.Nodup := hnd.of_cons
    have hk : k ∉ ks := by
      have := List.nodup_cons.mp hnd
      exact this.1
    have hmap : ∀ k' ∈ ks,
        sumFor k' (ps.filter (fun p => !(decide (p.1 = k)))) = sumFor k' ps := by
      intro k' hk'
      have hne : k' ≠ k := fun h => hk (h ▸ hk')
      unfold sumFor
      rw [List.filter_filter]
      exact congrArg List.sum (congrArg (List.map Prod.snd)
        (List.filter_congr (fun p _ => by
          by_cases hp : p.1 = k' <;> simp [hp, hne])))
    have hall' : ∀ p ∈ ps.filter (fun p => !(decide (p.1 = k))), p.1 ∈ ks := by
      intro p hp
      have := List.mem_filter.mp hp
      have h2 : p.1 ≠ k := by simpa using this.2
      cases hall p this.1 with
      | head => exact absurd rfl h2
      | tail _ h => exact h
    calc (List.map (fun k' => sumFor k' ps) (k :: ks)).sum
        = sumFor k ps + (ks.map (fun k' => sumFor k' ps)).sum := by
          simp [List.map_cons, List.sum_cons]
      _ = sumFor k ps +
          (ks.map (fun k' => sumFor k' (ps.filter (fun p => !(decide (p.1 = k)))))).sum := by
          congr 1
          exact congrArg List.sum (List.map_congr_left (fun k' hk' => (hmap k' hk').symm))
      _ = sumFor k ps + ((ps.filter (fun p => !(decide (p.1 = k)))).map Prod.snd).sum := by
          rw [ih _ hnd' hall']
      _ = (ps.map Prod.snd).sum := by
          have := sum_filter_add_filter_not (fun p => decide (p.1 = k)) ps
          unfold sumFor
          omega

lemma dedupFirst_nodup : ∀ l : List Value, (dedupFirst l).Nodup
  | [] => List.nodup_nil
  | k :: ks => by
    rw [dedupFirst]
    refine List.nodup_cons.mpr ⟨?_, (dedupFirst_nodup ks).filter _⟩
    intro hmem
    have := List.mem_filter.mp hmem
    simp at this

lemma mem_dedupFirst : ∀ (l : List Value) (x : Value), x ∈ dedupFirst l ↔ x ∈ l
  | [], x => by simp [dedupFirst]
  | k :: ks, x => by
    rw [dedupFirst]
    by_cases hx : x = k
    · simp [hx]
    · simp only [List.mem_cons, List.mem_filter, mem_dedupFirst ks x]
      simp [hx]

/-- The summed column of the grouped-and-sorted series adds up to the summed
column of the raw pairs: sorting is a permutation, and the duplicate-free key
list partitions the pairs. -/
lemma sum_snd_sortDesc_groupSumAsc (ps : List (Value × Int)) :
    ((sortDescAmt (groupSumAsc ps)).map Prod.snd).sum = (ps.map Prod.snd).sum := by
  have hperm : List.Perm (sortDescAmt (groupSumAsc ps)) (groupSumAsc ps) :=
    List.perm_insertionSort descAmt (groupSumAsc ps)
  rw [(hperm.map Prod.snd).sum_eq]
  unfold groupSumAsc
  rw [List.map_map]
  have hmm : (Prod.snd ∘ fun k => (k, sumFor k ps)) = fun k => sumFor k ps := rfl
  rw [hmm]
  have hkperm : List.Perm (List.insertionSort Value.le (dedupFirst (ps.map Prod.fst)))
      (dedupFirst (ps.map Prod.fst)) :=
    List.perm_insertionSort Value.le (dedupFirst (ps.map Prod.fst))
  rw [(hkperm.map (fun k => sumFor k ps)).sum_eq]
  exact sum_sumFor (dedupFirst (ps.map Prod.fst)) ps
    (dedupFirst_nodup (ps.map Prod.fst))
    (fun p hp => (mem_dedupFirst _ _).mpr (List.mem_map_of_mem Prod.fst hp))

/-- The mapped amounts of the category pairs are the row amounts. -/
lemma catPairs_map_snd (t : Table) (c ac : String) :
    (catPairs t c ac).map Prod.snd = t.rows.map (amountOf ac) := by
  unfold catPairs
  rw [List.map_map]
  rfl

/-- Conservation of the total across any single grouping column. -/
lemma sum_snd_series (t : Table) (c ac : String) :
    ((sortDescAmt (groupSumAsc (catPairs t c ac))).map Prod.snd).sum =
      total_sales t ac := by
  rw [sum_snd_sortDesc_groupSumAsc, catPairs_map_snd]
  rfl

/-! ## Helper lemmas: sort order of the grouped series -/

/-- The pairwise relation of the finished series given a pairwise relation
`S` on the grouped input: strictly larger amount first, ties related by `S`. -/
def tieLex (S : (Value × Int) → (Value × Int) → Prop)
    (p q : Value × Int) : Prop :=
  q.2 < p.2 ∨ (p.2 = q.2 ∧ S p q)

/-- Inserting `x` into a `tieLex`-pairwise list below everything `S`-related
to it keeps the list `tieLex`-pairwise (stability of the descending insert:
`x` passes the entries with amount at least its own). -/
lemma pairwise_tieLex_orderedInsert (S : (Value × Int) → (Value × Int) → Prop)
    (x : Value × Int) :
    ∀ l : List (Value × Int), l.Pairwise (tieLex S) → (∀ y ∈ l, S x y) →
      (List.orderedInsert descAmt x l).Pairwise (tieLex S)
  | [], _, _ => by simp [List.orderedInsert]
  | b :: m, hl, hx => by
    rw [List.orderedInsert]
    by_cases h : descAmt x b
    · rw [if_pos h]
      have hble : ∀ y ∈ b :: m, y.2 ≤ x.2 := by
        intro y hy
        cases hy with
        | head => exact h
        | tail _ hy =>
          rcases (List.pairwise_cons.mp hl).1 y hy with hlt | ⟨heq, _⟩
          · exact le_trans (le_of_lt hlt) h
          · exact le_trans (le_of_eq heq.symm) h
      refine List.Pairwise.cons ?_ hl
      intro y hy
      rcases lt_or_eq_of_le (hble y hy) with hlt | heq
      · exact Or.inl hlt
      · exact Or.inr ⟨heq.symm, hx y hy⟩
    · rw [if_neg h]
      have hxb : x.2 < b.2 := lt_of_not_le h
      have hbm := List.pairwise_cons.mp hl
      refine List.Pairwise.cons ?_
        (pairwise_tieLex_orderedInsert S x m hbm.2
          (fun y hy => hx y (List.mem_cons_of_mem b hy)))
      intro y hy
      rcases (List.mem_orderedInsert descAmt).mp hy with hyx | hym
      · exact hyx ▸ Or.inl hxb
      · exact hbm.1 y hym

/-- The stable descending sort of an `S`-pairwise list is `tieLex`-pairwise:
sorted descending by amount with ties still `S`-related in order. -/
lemma pairwise_tieLex_sortDescAmt (S : (Value × Int) → (Value × Int) → Prop) :
    ∀ l : List (Value × Int), l.Pairwise S → (sortDescAmt l).Pairwise (tieLex S)
  | [], _ => by simp [sortDescAmt, List.insertionSort]
  | a :: m, hl => by
    have hm := List.pairwise_cons.mp hl
    show (List.orderedInsert descAmt a (List.insertionSort descAmt m)).Pairwise _
    exact pairwise_tieLex_orderedInsert S a (List.insertionSort descAmt m)
      (pairwise_tieLex_sortDescAmt S m hm.2)
      (fun y hy => hm.1 y ((List.mem_insertionSort descAmt).mp hy))

/-- The ascending key sort of a duplicate-free key list is strictly
ascending. -/
lemma pairwise_lt_sorted_keys (ks : List Value) (hnd : ks.Nodup) :
    (List.insertionSort Value.le ks).Pairwise Value.lt := by
  have hs : (List.insertionSort Value.le ks).Pairwise Value.le :=
    List.sorted_insertionSort Value.le ks
  have hnd2 : (List.insertionSort Value.le ks).Pairwise (fun a b => a ≠ b) :=
    ((List.perm_insertionSort Value.le ks).nodup_iff).mpr hnd
  exact (hs.and hnd2).imp (fun h => h)

/-- The grouped output is strictly ascending in its keys. -/
lemma pairwise_keys_groupSumAsc (ps : List (Value × Int)) :
    (groupSumAsc ps).Pairwise (fun p q => Value.lt p.1 q.1) := by
  unfold groupSumAsc
  exact List.pairwise_map.mpr
    (pairwise_lt_sorted_keys (dedupFirst (ps.map Prod.fst))
      (dedupFirst_nodup (ps.map Prod.fst)))

/-- The finished category series: descending by amount, ties strictly
ascending by key. -/
lemma pairwise_series (ps : List (Value × Int)) :
    (sortDescAmt (groupSumAsc ps)).Pairwise
      (fun p q => q.2 < p.2 ∨ (p.2 = q.2 ∧ Value.lt p.1 q.1)) :=
  pairwise_tieLex_sortDescAmt _ (groupSumAsc ps) (pairwise_keys_groupSumAsc ps)

/-! ## Helper lemmas: rows, column overwrite, trend -/

/-- Overwriting one column leaves every other column's value unchanged. -/
lemma rowGet_setCol_ne (v : Value) {c cx : String} (hne : cx ≠ c) :
    ∀ r : Row, rowGet (setCol c v r) cx = rowGet r cx
  | [] => rfl
  | p :: r => by
    by_cases hp : p.1 = c
    · have h1 : ¬((c, v).1 = cx) := fun h => hne h.symm
      have h2 : ¬(p.1 = cx) := fun h => hne ((h ▸ hp : cx = c))
      rw [setCol, List.map_cons, if_pos hp, rowGet, rowGet, if_neg h1, if_neg h2]
      exact rowGet_setCol_ne v hne r
    · rw [setCol, List.map_cons, if_neg hp, rowGet, rowGet]
      by_cases hx : p.1 = cx
      · rw [if_pos hx, if_pos hx]
      · rw [if_neg hx, if_neg hx]
        exact rowGet_setCol_ne v hne r

lemma rowGetD_setCol_ne (v : Value) {c cx : String} (hne : cx ≠ c) (r : Row) :
    rowGetD (setCol c v r) cx = rowGetD r cx := by
  unfold rowGetD
  rw [rowGet_setCol_ne v hne r]

/-- Reading back the overwritten column yields the new value whenever the
column exists in the row. -/
lemma rowGet_setCol_self (v : Value) (c : String) :
    ∀ r : Row, rowGet (setCol c v r) c = (rowGet r c).map (fun _ => v)
  | [] => rfl
  | p :: r => by
    by_cases hp : p.1 = c
    · rw [setCol, List.map_cons, if_pos hp, rowGet, if_pos rfl, rowGet, if_pos hp]
      rfl
    · rw [setCol, List.map_cons, if_neg hp, rowGet, if_neg hp, rowGet, if_neg hp]
      exact rowGet_setCol_self v c r

/-- Restricting a table to its rows with parsable dates first does not change
the rows feeding the trend: the unparsable rows are dropped by the trend
step anyway. -/
lemma trendRows_filter_isSome (parse : Value → Option Int) :
    ∀ l : List Row,
      (l.filter (fun r => (parse (rowGetD r "orderdate")).isSome)).filterMap
        (fun r => (parse (rowGetD r "orderdate")).map
          (fun d => setCol "orderdate" (Value.num d) r)) =
      l.filterMap (fun r => (parse (rowGetD r "orderdate")).map
        (fun d => setCol "orderdate" (Value.num d) r))
  | [] => rfl
  | r :: l => by
    cases hp : parse (rowGetD r "orderdate") with
    | none =>
      rw [List.filter_cons_of_neg (by simp [hp])]
      simp only [List.filterMap_cons, hp, Option.map_none']
      exact trendRows_filter_isSome parse l
    | some d =>
      rw [List.filter_cons_of_pos (by simp [hp])]
      simp only [List.filterMap_cons, hp, Option.map_some']
      rw [trendRows_filter_isSome parse l]

/-- A list's length splits along a boolean predicate. -/
lemma length_filter_add_not (p : Row → Bool) :
    ∀ l : List Row,
      (l.filter p).length + (l.filter (fun a => !p a)).length = l.length
  | [] => rfl
  | a :: l => by
    cases h : p a
    · rw [List.filter_cons_of_neg (by simp [h]),
        List.filter_cons_of_pos (by simp [h]), List.length_cons, List.length_cons]
      rw [← length_filter_add_not p l]
      omega
    · rw [List.filter_cons_of_pos (by simp [h]),
        List.filter_cons_of_neg (by simp [h]), List.length_cons, List.length_cons]
      rw [← length_filter_add_not p l]
      omega

/-- An amount-column sum splits along a boolean predicate on rows. -/
lemma sum_amount_filter_add_not (p : Row → Bool) (ac : String) :
    ∀ l : List Row,
      ((l.filter p).map (amountOf ac)).sum +
        ((l.filter (fun a => !p a)).map (amountOf ac)).sum =
        (l.map (amountOf ac)).sum
  | [] => rfl
  | a :: l => by
    cases h : p a
    · rw [List.filter_cons_of_neg (by simp [h]),
        List.filter_cons_of_pos (by simp [h])]
      simp only [List.map_cons, List.sum_cons]
      rw [← sum_amount_filter_add_not p ac l]
      omega
    · rw [List.filter_cons_of_pos (by simp [h]),
        List.filter_cons_of_neg (by simp [h])]
      simp only [List.map_cons, List.sum_cons]
      rw [← sum_amount_filter_add_not p ac l]
      omega

/-- The mean as pandas computes it equals sum over count once the table is
non-empty. -/
lemma avg_sales_eq_div (t : Table) (ac : String) (h : t.rows.length ≠ 0) :
    avg_sales t ac =
      some ((total_sales t ac : ℚ) / (num_transactions t : ℚ)) := by
  unfold avg_sales
  rw [if_neg (by simpa using h)]
  congr 2
  · rw [foldl_add_eq_sum, zero_add]
    rfl
  · rw [List.length_map]
    rfl

/-! ## Helper lemmas: the revenue column is ignored once `sales` resolves -/

lemma tableEq (t1 t2 : Table) (hc : t1.cols = t2.cols) (hr : t1.rows = t2.rows) :
    t1 = t2 := by
  cases t1
  cases t2
  cases hc
  cases hr
  rfl

lemma product_column_ne_revenue {cols : List String} {pc : String}
    (h : product_column cols = some pc) : pc ≠ "revenue" := by
  intro hrev
  unfold product_column at h
  split_ifs at h <;> injection h with h2 <;> rw [← h2] at hrev <;>
    exact absurd hrev (by decide)

lemma region_column_ne_revenue {cols : List String} {rc : String}
    (h : region_column cols = some rc) : rc ≠ "revenue" := by
  intro hrev
  unfold region_column at h
  split_ifs at h <;> injection h with h2 <;> rw [← h2] at hrev <;>
    exact absurd hrev (by decide)

lemma rolePred_setRevenue (f : Row → Value) (c : Option String)
    (sel : Option (List Value)) (hc : ∀ s, c = some s → s ≠ "revenue") (r : Row) :
    rolePred c sel (setCol "revenue" (f r) r) = rolePred c sel r := by
  cases c with
  | none => rfl
  | some cc =>
    cases sel with
    | none => rfl
    | some vs =>
      simp only [rolePred]
      rw [rowGetD_setCol_ne (f r) (hc cc rfl) r]

lemma filter_map_setRevenue (f : Row → Value) (c : Option String)
    (sel : Option (List Value)) (hc : ∀ s, c = some s → s ≠ "revenue")
    (l : List Row) :
    (l.map (fun r => setCol "revenue" (f r) r)).filter (rolePred c sel) =
      (l.filter (rolePred c sel)).map (fun r => setCol "revenue" (f r) r) := by
  rw [List.filter_map]
  exact congrArg (List.map _)
    (List.filter_congr (fun r _ => rolePred_setRevenue f c sel hc r))

/-- Rewriting the revenue cells commutes with the sidebar filters: none of
the four filter roles can be bound to the `revenue` column. -/
lemma applyFilters_setRevenue (nt : Table) (fs : FilterSpec) (f : Row → Value) :
    applyFilters { nt with rows := nt.rows.map (fun r => setCol "revenue" (f r) r) } fs =
      { applyFilters nt fs with
        rows := (applyFilters nt fs).rows.map (fun r => setCol "revenue" (f r) r) } := by
  have hc1 : ∀ s, product_column nt.cols = some s → s ≠ "revenue" :=
    fun s hs => product_column_ne_revenue hs
  have hc2 : ∀ s, region_column nt.cols = some s → s ≠ "revenue" :=
    fun s hs => region_column_ne_revenue hs
  have hc3 : ∀ s, (if "status" ∈ nt.cols then some "status" else none) = some s →
      s ≠ "revenue" := by
    intro s hs
    by_cases hst : "status" ∈ nt.cols
    · rw [if_pos hst] at hs
      injection hs with h2
      rw [← h2]
      decide
    · rw [if_neg hst] at hs
      exact Option.noConfusion hs
  have hc4 : ∀ s, (if "year_id" ∈ nt.cols then some "year_id" else none) = some s →
      s ≠ "revenue" := by
    intro s hs
    by_cases hst : "year_id" ∈ nt.cols
    · rw [if_pos hst] at hs
      injection hs with h2
      rw [← h2]
      decide
    · rw [if_neg hst] at hs
      exact Option.noConfusion hs
  refine tableEq _ _ rfl ?_
  show ((((nt.rows.map (fun r => setCol "revenue" (f r) r)).filter
      (rolePred (product_column nt.cols) fs.product)).filter
      (rolePred (region_column nt.cols) fs.region)).filter
      (rolePred (if "status" ∈ nt.cols then some "status" else none) fs.status)).filter
      (rolePred (if "year_id" ∈ nt.cols then some "year_id" else none) fs.year) =
    ((((nt.rows.filter (rolePred (product_column nt.cols) fs.product)).filter
      (rolePred (region_column nt.cols) fs.region)).filter
      (rolePred (if "status" ∈ nt.cols then some "status" else none) fs.status)).filter
      (rolePred (if "year_id" ∈ nt.cols then some "year_id" else none) fs.year)).map
      (fun r => setCol "revenue" (f r) r)
  rw [filter_map_setRevenue f _ _ hc1, filter_map_setRevenue f _ _ hc2,
    filter_map_setRevenue f _ _ hc3, filter_map_setRevenue f _ _ hc4]

lemma amounts_setRevenue (f : Row → Value) (ac : String) (hac : ac ≠ "revenue")
    (l : List Row) :
    (l.map (fun r => setCol "revenue" (f r) r)).map (amountOf ac) =
      l.map (amountOf ac) := by
  rw [List.map_map]
  apply List.map_congr_left
  intro r _
  show amountOf ac (setCol "revenue" (f r) r) = amountOf ac r
  unfold amountOf
  rw [rowGetD_setCol_ne (f r) hac r]

lemma catPairs_setRevenue (f : Row → Value) (T : Table) (c ac : String)
    (hc : c ≠ "revenue") (hac : ac ≠ "revenue") :
    catPairs { T with rows := T.rows.map (fun r => setCol "revenue" (f r) r) } c ac =
      catPairs T c ac := by
  unfold catPairs
  show (T.rows.map (fun r => setCol "revenue" (f r) r)).map _ = _
  rw [List.map_map]
  apply List.map_congr_left
  intro r _
  show (rowGetD (setCol "revenue" (f r) r) c, amountOf ac (setCol "revenue" (f r) r)) =
    (rowGetD r c, amountOf ac r)
  rw [rowGetD_setCol_ne (f r) hc r]
  unfold amountOf
  rw [rowGetD_setCol_ne (f r) hac r]

lemma total_sales_setRevenue (f : Row → Value) (T : Table) (ac : String)
    (hac : ac ≠ "revenue") :
    total_sales { T with rows := T.rows.map (fun r => setCol "revenue" (f r) r) } ac =
      total_sales T ac := by
  unfold total_sales
  show ((T.rows.map (fun r => setCol "revenue" (f r) r)).map (amountOf ac)).sum = _
  rw [amounts_setRevenue f ac hac T.rows]

lemma avg_sales_setRevenue (f : Row → Value) (T : Table) (ac : String)
    (hac : ac ≠ "revenue") :
    avg_sales { T with rows := T.rows.map (fun r => setCol "revenue" (f r) r) } ac =
      avg_sales T ac := by
  unfold avg_sales
  show (if ((T.rows.map (fun r => setCol "revenue" (f r) r)).map (amountOf ac)).length = 0
      then none
      else some (((((T.rows.map (fun r => setCol "revenue" (f r) r)).map
        (amountOf ac)).foldl (fun a b => a + b) 0 : Int) : ℚ) /
        (((T.rows.map (fun r => setCol "revenue" (f r) r)).map (amountOf ac)).length : ℚ))) = _
  rw [amounts_setRevenue f ac hac T.rows]

lemma sales_trend_setRevenue (f : Row → Value) (T : Table) (ac : String)
    (hac : ac ≠ "revenue") (hao : ac ≠ "orderdate")
    (parse : Value → Option Int) :
    sales_trend { T with rows := T.rows.map (fun r => setCol "revenue" (f r) r) } ac parse =
      sales_trend T ac parse := by
  unfold sales_trend trendRows
  congr 1
  show ((T.rows.map (fun r => setCol "revenue" (f r) r)).filterMap _).map _ =
    (T.rows.filterMap _).map _
  rw [List.map_filterMap, List.map_filterMap, List.filterMap_map]
  refine congrArg (fun h => List.filterMap h T.rows) (funext (fun r => ?_))
  show ((parse (rowGetD (setCol "revenue" (f r) r) "orderdate")).map
      (fun d => setCol "orderdate" (Value.num d) (setCol "revenue" (f r) r))).map
      (fun r => (rowGetD r "orderdate", amountOf ac r)) =
    ((parse (rowGetD r "orderdate")).map
      (fun d => setCol "orderdate" (Value.num d) r)).map
      (fun r => (rowGetD r "orderdate", amountOf ac r))
  rw [rowGetD_setCol_ne (f r) (by decide : ("orderdate" : String) ≠ "revenue") r]
  cases hp : parse (rowGetD r "orderdate") with
  | none => rfl
  | some d =>
    show some (rowGetD (setCol "orderdate" (Value.num d) (setCol "revenue" (f r) r))
        "orderdate",
      amountOf ac (setCol "orderdate" (Value.num d) (setCol "revenue" (f r) r))) =
      some (rowGetD (setCol "orderdate" (Value.num d) r) "orderdate",
        amountOf ac (setCol "orderdate" (Value.num d) r))
    have h1 : rowGetD (setCol "orderdate" (Value.num d) (setCol "revenue" (f r) r))
        "orderdate" = rowGetD (setCol "orderdate" (Value.num d) r) "orderdate" := by
      unfold rowGetD
      rw [rowGet_setCol_self, rowGet_setCol_self,
        rowGet_setCol_ne (f r) (by decide : ("orderdate" : String) ≠ "revenue") r]
    have h2 : amountOf ac (setCol "orderdate" (Value.num d) (setCol "revenue" (f r) r)) =
        amountOf ac (setCol "orderdate" (Value.num d) r) := by
      unfold amountOf
      rw [rowGetD_setCol_ne (Value.num d) hao, rowGetD_setCol_ne (Value.num d) hao,
        rowGetD_setCol_ne (f r) hac r]
    rw [h1, h2]

/-- Rewriting the revenue cells changes no aggregate computed from a
non-revenue amount column. -/
lemma aggregate_setRevenue (f : Row → Value) (T : Table) (parse : Value → Option Int) :
    aggregate { T with rows := T.rows.map (fun r => setCol "revenue" (f r) r) }
      "sales" parse = aggregate T "sales" parse := by
  have hac : ("sales" : String) ≠ "revenue" := by decide
  unfold aggregate
  simp only [AggregateResult.mk.injEq]
  refine ⟨total_sales_setRevenue f T "sales" hac,
    avg_sales_setRevenue f T "sales" hac, ?_, ?_, ?_, ?_⟩
  · show ((T.rows.map (fun r => setCol "revenue" (f r) r)).length : Nat) = T.rows.length
    rw [List.length_map]
  · show (product_column T.cols).map _ = (product_column T.cols).map _
    cases hpc : product_column T.cols with
    | none => rfl
    | some pc =>
      simp only [Option.map_some']
      unfold sales_by_product
      rw [catPairs_setRevenue f T pc "sales" (product_column_ne_revenue hpc) hac]
  · show (region_column T.cols).map _ = (region_column T.cols).map _
    cases hrc : region_column T.cols with
    | none => rfl
    | some rc =>
      simp only [Option.map_some']
      unfold sales_by_region
      rw [catPairs_setRevenue f T rc "sales" (region_column_ne_revenue hrc) hac]
  · show (if "orderdate" ∈ T.cols then _ else none) = (if "orderdate" ∈ T.cols then _ else none)
    by_cases hod : "orderdate" ∈ T.cols
    · rw [if_pos hod, if_pos hod,
        sales_trend_setRevenue f T "sales" hac (by decide) parse]
    · rw [if_neg hod, if_neg hod]

/-! ## Concrete instances used by witnesses and counterexamples -/

/-- A concrete stand-in for `pd.to_datetime(..., errors="coerce")`: numeric
cells parse to themselves, strings fail. -/
def parseNum : Value → Option Int
  | Value.num n => some n
  | Value.str _ => none

/-- The FilterSpec with no filter narrowed (the default view state). -/
def noFilters : FilterSpec := ⟨none, none, none, none⟩

/-! ## Claims -/

/-- C1: for every input table whose normalized column names contain neither
`sales` nor `revenue`, the pipeline halts with the missing-amount error
after resolution; the error carries no aggregates, so no total, mean, count
or grouped series is produced. -/
theorem missingAmount_halts_pipeline (t : Table) (fs : FilterSpec)
    (parse : Value → Option Int)
    (h1 : "sales" ∉ (normalizeColumns t).cols)
    (h2 : "revenue" ∉ (normalizeColumns t).cols) :
    runPipeline t fs parse = Except.error PipelineError.missingAmount := by
  have hs : sales_amount_col (normalizeColumns t).cols = none := by
    unfold sales_amount_col
    rw [if_neg h1, if_neg h2]
  unfold runPipeline runResolved
  rw [hs]

def tC1 : Table :=
  { cols := [" Amount", "Qty"]
    rows := [[(" Amount", Value.num 3), ("Qty", Value.num 1)]] }

theorem missingAmount_halts_pipeline_witness :
    ("sales" ∉ (normalizeColumns tC1).cols ∧
      "revenue" ∉ (normalizeColumns tC1).cols) ∧
    runPipeline tC1 noFilters parseNum = Except.error PipelineError.missingAmount :=
  ⟨⟨by decide, by decide⟩,
    missingAmount_halts_pipeline tC1 noFilters parseNum (by decide) (by decide)⟩

/-- C2: on every non-empty filtered table the reported mean is the total
(sum of the amount column) divided by the row count; the count-zero case is
the subject of C4, where the mean is reported absent rather than a
quotient. -/
theorem mean_eq_total_div_count (nt : Table) (fs : FilterSpec) (ac : String)
    (h : num_transactions (applyFilters nt fs) ≠ 0) :
    avg_sales (applyFilters nt fs) ac =
      some ((total_sales (applyFilters nt fs) ac : ℚ) /
        (num_transactions (applyFilters nt fs) : ℚ)) :=
  avg_sales_eq_div _ ac h

def tC2 : Table :=
  { cols := ["sales"]
    rows := [[("sales", Value.num 10)], [("sales", Value.num 20)]] }

theorem mean_eq_total_div_count_witness :
    num_transactions (applyFilters tC2 noFilters) ≠ 0 ∧
    avg_sales (applyFilters tC2 noFilters) "sales" =
      some ((total_sales (applyFilters tC2 noFilters) "sales" : ℚ) /
        (num_transactions (applyFilters tC2 noFilters) : ℚ)) :=
  ⟨by decide, mean_eq_total_div_count tC2 noFilters "sales" (by decide)⟩

/-- C4: a filtered table with zero rows yields count 0, total 0 and an
absent mean — every aggregate is a total function here, so no
division-by-zero error can arise. -/
theorem empty_filter_result_safe (nt : Table) (fs : FilterSpec) (ac : String)
    (h : (applyFilters nt fs).rows = []) :
    num_transactions (applyFilters nt fs) = 0 ∧
    total_sales (applyFilters nt fs) ac = 0 ∧
    avg_sales (applyFilters nt fs) ac = none := by
  refine ⟨?_, ?_, ?_⟩
  · unfold num_transactions
    rw [h]
    rfl
  · unfold total_sales
    rw [h]
    rfl
  · unfold avg_sales
    rw [h]
    rfl

def tC4 : Table :=
  { cols := ["country", "sales"]
    rows := [[("country", Value.str "US"), ("sales", Value.num 10)]] }

def fsC4 : FilterSpec := ⟨none, some [], none, none⟩

theorem empty_filter_result_safe_witness :
    (applyFilters tC4 fsC4).rows = [] ∧
    (num_transactions (applyFilters tC4 fsC4) = 0 ∧
      total_sales (applyFilters tC4 fsC4) "sales" = 0 ∧
      avg_sales (applyFilters tC4 fsC4) "sales" = none) :=
  ⟨by decide, empty_filter_result_safe tC4 fsC4 "sales" (by decide)⟩

/-- C5: applying the same FilterSpec twice yields the same table as applying
it once — each role's filter keeps exactly the rows whose cell is in the
accepted set, so a second pass keeps everything. -/
theorem applyFilters_idem (nt : Table) (fs : FilterSpec) :
    applyFilters (applyFilters nt fs) fs = applyFilters nt fs := by
  refine tableEq _ _ rfl ?_
  exact four_filters_idem nt.rows
    (rolePred (product_column nt.cols) fs.product)
    (rolePred (region_column nt.cols) fs.region)
    (rolePred (if "status" ∈ nt.cols then some "status" else none) fs.status)
    (rolePred (if "year_id" ∈ nt.cols then some "year_id" else none) fs.year)

/-- C10: the filtered table is a subsequence of the resolved table —
filtering only removes rows and keeps the survivors in their original
relative order (and never touches the columns). -/
theorem applyFilters_sublist (nt : Table) (fs : FilterSpec) :
    (applyFilters nt fs).cols = nt.cols ∧
    (applyFilters nt fs).rows.Sublist nt.rows :=
  ⟨rfl, (List.filter_sublist _).trans ((List.filter_sublist _).trans
    ((List.filter_sublist _).trans (List.filter_sublist _)))⟩

/-- C3: on a non-empty filtered table, for a bound Product or Region role
the scalar total equals the sum of the per-group summed amounts of that
role's series (conservation of the total across a grouping). -/
theorem total_conserved_across_grouping (nt : Table) (fs : FilterSpec)
    (pc rc ac : String) (_hne : (applyFilters nt fs).rows ≠ []) :
    (product_column (applyFilters nt fs).cols = some pc →
      total_sales (applyFilters nt fs) ac =
        ((sales_by_product (applyFilters nt fs) pc ac).map Prod.snd).sum) ∧
    (region_column (applyFilters nt fs).cols = some rc →
      total_sales (applyFilters nt fs) ac =
        ((sales_by_region (applyFilters nt fs) rc ac).map Prod.snd).sum) :=
  ⟨fun _ => (sum_snd_series (applyFilters nt fs) pc ac).symm,
    fun _ => (sum_snd_series (applyFilters nt fs) rc ac).symm⟩

def tC3 : Table :=
  { cols := ["productline", "country", "sales"]
    rows :=
      [[("productline", Value.str "A"), ("country", Value.str "US"),
        ("sales", Value.num 100)],
       [("productline", Value.str "B"), ("country", Value.str "US"),
        ("sales", Value.num 50)],
       [("productline", Value.str "A"), ("country", Value.str "CA"),
        ("sales", Value.num 30)]] }

theorem total_conserved_across_grouping_witness :
    total_sales (applyFilters tC3 noFilters) "sales" =
      ((sales_by_product (applyFilters tC3 noFilters) "productline" "sales").map
        Prod.snd).sum :=
  (total_conserved_across_grouping tC3 noFilters "productline" "country" "sales"
    (by decide)).1 (by decide)

/-- The sort contract claimed by the spec for the grouped series (stated
from the spec's words, for comparison with the code's series): descending by
summed amount, ties in first-encountered key order. -/
def specTieFirstSeen (series : List (Value × Int)) (firstSeen : List Value) : Prop :=
  series.Pairwise (fun p q => q.2 < p.2 ∨
    (p.2 = q.2 ∧ firstSeen.indexOf p.1 < firstSeen.indexOf q.1))

instance (series : List (Value × Int)) (firstSeen : List Value) :
    Decidable (specTieFirstSeen series firstSeen) :=
  inferInstanceAs (Decidable (series.Pairwise _))

def tC6 : Table :=
  { cols := ["productline", "sales"]
    rows := [[("productline", Value.str "b"), ("sales", Value.num 1)],
             [("productline", Value.str "a"), ("sales", Value.num 1)]] }

/-- C6 counterexample: on the filtered table with rows keyed `b` then `a`
and equal amounts, the Product role is bound, the two groups tie, yet the
code's series lists `a` before `b` — the keys' first-encountered order is
`b` then `a`, so the claimed tie rule fails: `groupby` pre-sorts the group
keys ascending, destroying encounter order before the amount sort runs. -/
theorem series_tie_not_first_seen :
    product_column (applyFilters tC6 noFilters).cols = some "productline" ∧
    ¬ specTieFirstSeen
      (sales_by_product (applyFilters tC6 noFilters) "productline" "sales")
      (dedupFirst ((applyFilters tC6 noFilters).rows.map
        (fun r => rowGetD r "productline"))) :=
  ⟨by decide, by decide⟩

/-- C6 amended: the grouped series is sorted in descending order of summed
amount, and groups with equal summed amounts appear in ascending order of
their group key (the order `groupby` imposes), not in first-encountered
order.  Stated for both category roles at any grouping column, which covers
in particular the bound Product and Region columns. -/
theorem series_sorted_desc_ties_ascending_key (nt : Table) (fs : FilterSpec)
    (pc rc ac : String) :
    (sales_by_product (applyFilters nt fs) pc ac).Pairwise
      (fun p q => q.2 < p.2 ∨ (p.2 = q.2 ∧ Value.lt p.1 q.1)) ∧
    (sales_by_region (applyFilters nt fs) rc ac).Pairwise
      (fun p q => q.2 < p.2 ∨ (p.2 = q.2 ∧ Value.lt p.1 q.1)) :=
  ⟨pairwise_series _, pairwise_series _⟩

/-- The rows whose date cell fails to parse. -/
def badRows (t : Table) (parse : Value → Option Int) : List Row :=
  t.rows.filter (fun r => (parse (rowGetD r "orderdate")).isNone)

/-- The table restricted to the rows whose date cell parses. -/
def parsableOnly (t : Table) (parse : Value → Option Int) : Table :=
  { t with rows := t.rows.filter (fun r => (parse (rowGetD r "orderdate")).isSome) }

/-- C7: when some date cells fail to parse, those rows are excluded from the
trend series only — the trend of the table equals the trend of its
parsable-rows restriction — while total and count still include them: they
decompose as the parsable part plus a non-empty unparsable remainder, so the
row count strictly exceeds the parsable row count.  (The category series and
KPIs read only the grouping and amount columns, never the date column.) -/
theorem unparsable_dates_dropped_from_trend_only (t : Table) (ac : String)
    (parse : Value → Option Int) (hbad : badRows t parse ≠ []) :
    sales_trend t ac parse = sales_trend (parsableOnly t parse) ac parse ∧
    total_sales t ac = total_sales (parsableOnly t parse) ac +
      ((badRows t parse).map (amountOf ac)).sum ∧
    num_transactions t = num_transactions (parsableOnly t parse) +
      (badRows t parse).length ∧
    num_transactions (parsableOnly t parse) < num_transactions t := by
  have hb : badRows t parse =
      t.rows.filter (fun r => !((parse (rowGetD r "orderdate")).isSome)) := by
    unfold badRows
    apply List.filter_congr
    intro r _
    cases parse (rowGetD r "orderdate") <;> rfl
  have htrend : sales_trend t ac parse = sales_trend (parsableOnly t parse) ac parse :=
    congrArg groupSumAsc (congrArg (List.map _)
      (trendRows_filter_isSome parse t.rows).symm)
  have hsum := sum_amount_filter_add_not
    (fun r => (parse (rowGetD r "orderdate")).isSome) ac t.rows
  have hlen := length_filter_add_not
    (fun r => (parse (rowGetD r "orderdate")).isSome) t.rows
  have htot : total_sales t ac = total_sales (parsableOnly t parse) ac +
      ((badRows t parse).map (amountOf ac)).sum := by
    rw [hb]
    show (t.rows.map (amountOf ac)).sum =
      ((t.rows.filter (fun r => (parse (rowGetD r "orderdate")).isSome)).map
        (amountOf ac)).sum +
      ((t.rows.filter (fun r => !((parse (rowGetD r "orderdate")).isSome))).map
        (amountOf ac)).sum
    omega
  have hcount : num_transactions t = num_transactions (parsableOnly t parse) +
      (badRows t parse).length := by
    rw [hb]
    show t.rows.length =
      (t.rows.filter (fun r => (parse (rowGetD r "orderdate")).isSome)).length +
      (t.rows.filter (fun r => !((parse (rowGetD r "orderdate")).isSome))).length
    omega
  refine ⟨htrend, htot, hcount, ?_⟩
  have hpos : 0 < (badRows t parse).length := List.length_pos.mpr hbad
  omega

def tC7 : Table :=
  { cols := ["sales", "orderdate"]
    rows := [[("sales", Value.num 5), ("orderdate", Value.num 1)],
             [("sales", Value.num 7), ("orderdate", Value.str "notadate")]] }

theorem unparsable_dates_dropped_from_trend_only_witness :
    badRows tC7 parseNum ≠ [] ∧
    (sales_trend tC7 "sales" parseNum =
        sales_trend (parsableOnly tC7 parseNum) "sales" parseNum ∧
      total_sales tC7 "sales" = total_sales (parsableOnly tC7 parseNum) "sales" +
        ((badRows tC7 parseNum).map (amountOf "sales")).sum ∧
      num_transactions tC7 = num_transactions (parsableOnly tC7 parseNum) +
        (badRows tC7 parseNum).length ∧
      num_transactions (parsableOnly tC7 parseNum) < num_transactions tC7) :=
  ⟨by decide, unparsable_dates_dropped_from_trend_only tC7 "sales" parseNum (by decide)⟩

def tC8 : Table :=
  { cols := ["sales", "orderdate"]
    rows := [[("sales", Value.num 5), ("orderdate", Value.num 1)],
             [("sales", Value.num 7), ("orderdate", Value.str "notadate")]] }

/-- C8 counterexample: the trend step is not read-only.  On this filtered
table with a bound Date column holding one unparsable value, the working
table after the aggregation section differs from the filtered table: lines
165-166 overwrite the `orderdate` column with its parsed values and drop the
unparsable row. -/
theorem aggregation_mutates_table_cex :
    dfAfterTrendStep (applyFilters tC8 noFilters) parseNum ≠
      applyFilters tC8 noFilters := by decide

/-- C8 amended: the KPI and category-series computations leave the working
table untouched — the only mutation in the aggregation section is the date
trend step, which overwrites the Date column with parsed values and drops
the rows that fail to parse.  Hence whenever no `orderdate` column is bound,
aggregation leaves the filtered table completely unchanged. -/
theorem trend_step_only_mutation (t : Table) (parse : Value → Option Int)
    (h : "orderdate" ∉ t.cols) : dfAfterTrendStep t parse = t := by
  unfold dfAfterTrendStep
  rw [if_neg h]

def tW8 : Table :=
  { cols := ["sales"]
    rows := [[("sales", Value.num 5)]] }

theorem trend_step_only_mutation_witness :
    "orderdate" ∉ tW8.cols ∧ dfAfterTrendStep tW8 parseNum = tW8 :=
  ⟨by decide, trend_step_only_mutation tW8 parseNum (by decide)⟩

/-- C9: when the normalized columns contain `sales` (in particular when they
contain both `sales` and `revenue`), the amount role binds to the `sales`
column — first match wins per file — and the values of the `revenue` column
are ignored by every aggregate: rewriting every row's revenue cell to an
arbitrary value changes no pipeline output. -/
theorem revenue_ignored_when_sales_present (nt : Table) (fs : FilterSpec)
    (parse : Value → Option Int) (f : Row → Value) (hs : "sales" ∈ nt.cols) :
    sales_amount_col nt.cols = some "sales" ∧
    runResolved { nt with rows := nt.rows.map (fun r => setCol "revenue" (f r) r) }
        fs parse = runResolved nt fs parse := by
  have hsac : sales_amount_col nt.cols = some "sales" := by
    unfold sales_amount_col
    rw [if_pos hs]
  have hsac2 : sales_amount_col
      ({ nt with rows := nt.rows.map (fun r => setCol "revenue" (f r) r) } : Table).cols =
      some "sales" := hsac
  refine ⟨hsac, ?_⟩
  unfold runResolved
  rw [hsac2]
  exact congrArg Except.ok (by
    rw [applyFilters_setRevenue nt fs f]
    exact aggregate_setRevenue f (applyFilters nt fs) parse)

def tC9 : Table :=
  { cols := ["sales", "revenue"]
    rows := [[("sales", Value.num 10), ("revenue", Value.num 999)]] }

theorem revenue_ignored_when_sales_present_witness :
    "sales" ∈ tC9.cols ∧
    (sales_amount_col tC9.cols = some "sales" ∧
      runResolved { tC9 with
          rows := tC9.rows.map (fun r => setCol "revenue" ((fun _ => Value.num 0) r) r) }
        noFilters parseNum = runResolved tC9 noFilters parseNum) :=
  ⟨by decide, revenue_ignored_when_sales_present tC9 noFilters parseNum
    (fun _ => Value.num 0) (by decide)⟩
